import Mathlib

/-!
# Verification of the DMARC PDF report generator

Shallow embedding of `collect_information_from_elasticsearch.py`.

Python dictionaries are modelled as insertion-ordered association lists
(`List (String × α)`): updating an existing key keeps its position, a new key
is appended — exactly the CPython dict semantics the script relies on.
Python's `sorted(..., key=..., reverse=True)` is a stable sort placing larger
keys first; it is modelled by `List.insertionSort` with the non-strict
descending relation `keyDesc`, which is stable in the same sense (proved
below as `insertionSort_filter_key`).

Machine integers: Python ints are unbounded, so counts are `Int`
(the script never validates non-negativity; the spec notes negative counts
propagate arithmetically).

External collaborators (Elasticsearch, pycountry, the shapefile, fpdf,
matplotlib) are modelled at the boundary the script reads from them:
the store query result is an `Except` value, the pycountry alpha-2 table is a
`String → Option String` parameter, and the shapefile is the list of its
`ADMIN` names.
-/

namespace DmarcReport

/-- One row returned by the store (`hit["_source"]`). All fields are optional:
the script reads every one of them with `dict.get` and a default. -/
structure AuthenticationRecord where
  message_count : Option Int
  dkim_aligned : Option Bool
  spf_aligned : Option Bool
  passed_dmarc : Option Bool
  source_country : Option String
  org_name : Option String
  org_email : Option String
deriving DecidableEq

/-- `record.get("message_count", 0)` -/
def mcD (r : AuthenticationRecord) : Int := r.message_count.getD 0

/-- `record.get("dkim_aligned", False)` -/
def dkimD (r : AuthenticationRecord) : Bool := r.dkim_aligned.getD false

/-- `record.get("spf_aligned", False)` -/
def spfD (r : AuthenticationRecord) : Bool := r.spf_aligned.getD false

/-- `record.get("passed_dmarc", False)` -/
def dmarcD (r : AuthenticationRecord) : Bool := r.passed_dmarc.getD false

/-- `record.get("source_country", "Unknown")` -/
def countryD (r : AuthenticationRecord) : String := r.source_country.getD "Unknown"

/-- `record.get("org_name", "Unknown")` -/
def orgNameD (r : AuthenticationRecord) : String := r.org_name.getD "Unknown"

/-- `record.get("org_email", "Unknown")` -/
def orgEmailD (r : AuthenticationRecord) : String := r.org_email.getD "Unknown"

/-! ## Summary totals (generate_pdf, lines 214-220) -/

/-- `sum(record.get("message_count", 0) for record in records)` -/
def total_messages (records : List AuthenticationRecord) : Int :=
  (records.map mcD).sum

/-- `sum(... if record.get("dkim_aligned", False))` -/
def total_dkim_aligned (records : List AuthenticationRecord) : Int :=
  ((records.filter fun r => dkimD r).map mcD).sum

/-- `sum(... if record.get("spf_aligned", False))` -/
def total_spf_passed (records : List AuthenticationRecord) : Int :=
  ((records.filter fun r => spfD r).map mcD).sum

/-- `sum(... if record.get("passed_dmarc", False))` -/
def total_dmarc_passed (records : List AuthenticationRecord) : Int :=
  ((records.filter fun r => dmarcD r).map mcD).sum

/-- `sum(... if not record.get("dkim_aligned", False))` -/
def total_dkim_unaligned (records : List AuthenticationRecord) : Int :=
  ((records.filter fun r => !dkimD r).map mcD).sum

/-- `sum(... if not record.get("spf_aligned", False))` -/
def total_spf_failed (records : List AuthenticationRecord) : Int :=
  ((records.filter fun r => !spfD r).map mcD).sum

/-- `sum(... if not record.get("passed_dmarc", False))` -/
def total_dmarc_failed (records : List AuthenticationRecord) : Int :=
  ((records.filter fun r => !dmarcD r).map mcD).sum

/-! ## Python dict model -/

/-- Lookup in an insertion-ordered association list (`d[k]` / `d.get(k)`). -/
def alookup {α : Type} : List (String × α) → String → Option α
  | [], _ => none
  | (k₁, v₁) :: rest, k => if k₁ = k then some v₁ else alookup rest k

/-- `d[k] = d.get(k, 0) + v` on a Python dict: an existing key keeps its
position and accumulates; a new key is appended. -/
def dictInsertAdd : List (String × Int) → String → Int → List (String × Int)
  | [], k, v => [(k, v)]
  | (k₁, v₁) :: rest, k, v =>
    if k₁ = k then (k₁, v₁ + v) :: rest else (k₁, v₁) :: dictInsertAdd rest k v

/-- `d[k] = v` on a Python dict: overwrite in place, append when new. -/
def dictSet : List (String × Int) → String → Int → List (String × Int)
  | [], k, v => [(k, v)]
  | (k₁, v₁) :: rest, k, v =>
    if k₁ = k then (k₁, v) :: rest else (k₁, v₁) :: dictSet rest k v

/-! ## Country counts (generate_pdf, lines 237-240) -/

/-- The `country_counts` loop: group records by `source_country`
(default "Unknown"), accumulating `message_count` (default 0). -/
def country_counts (records : List AuthenticationRecord) : List (String × Int) :=
  records.foldl (fun d r => dictInsertAdd d (countryD r) (mcD r)) []

/-! ## Sorting (Python `sorted(..., key=count, reverse=True)`) -/

/-- Non-strict "count not smaller" relation on which the stable insertion sort
models Python's `sorted(..., reverse=True)`. -/
def keyDesc {α : Type} (f : α → Int) (a b : α) : Prop := f b ≤ f a

instance {α : Type} (f : α → Int) : DecidableRel (keyDesc f) :=
  fun a b => Int.decLe (f b) (f a)

instance {α : Type} (f : α → Int) : IsTotal α (keyDesc f) :=
  ⟨fun a b => le_total (f b) (f a)⟩

instance {α : Type} (f : α → Int) : IsTrans α (keyDesc f) :=
  ⟨fun _ _ _ h₁ h₂ => le_trans h₂ h₁⟩

/-- `sorted(country_counts.items(), key=lambda item: item[1], reverse=True)` -/
def sorted_country_counts (records : List AuthenticationRecord) : List (String × Int) :=
  List.insertionSort (keyDesc Prod.snd) (country_counts records)

/-! ## Organization data (generate_pdf, lines 261-271) -/

/-- The `org_data` update: when the name is new, store the email and start at
the message count; when it exists, only the message total grows — the stored
email is never touched again. -/
def orgInsert : List (String × String × Int) → String → String → Int →
    List (String × String × Int)
  | [], n, e, m => [(n, e, m)]
  | (n₁, e₁, m₁) :: rest, n, e, m =>
    if n₁ = n then (n₁, e₁, m₁ + m) :: rest else (n₁, e₁, m₁) :: orgInsert rest n e m

/-- The `org_data` loop over the records. -/
def org_data (records : List AuthenticationRecord) : List (String × String × Int) :=
  records.foldl (fun d r => orgInsert d (orgNameD r) (orgEmailD r) (mcD r)) []

/-- Lookup in the organization association list. -/
def orgLookup : List (String × String × Int) → String → Option (String × Int)
  | [], _ => none
  | (n₁, e₁, m₁) :: rest, n => if n₁ = n then some (e₁, m₁) else orgLookup rest n

/-- `sorted(org_data.items(), key=lambda item: item[1]["messages"], reverse=True)` -/
def sorted_org_data (records : List AuthenticationRecord) : List (String × String × Int) :=
  List.insertionSort (keyDesc (fun p => p.2.2)) (org_data records)

/-! ## Store client (collect_records, get_total_message_count) -/

/-- `collect_records`: the whole try-block (query construction, `es.search`,
extraction of `hit["_source"]`) is the `Except` argument; the except-branch
of lines 52-54 returns the empty list. -/
def collect_records (queryResult : Except String (List AuthenticationRecord)) :
    List AuthenticationRecord :=
  match queryResult with
  | Except.ok records => records
  | Except.error _ => []

/-- `get_total_message_count`: on success the bucket values are summed
(lines 92-96); the except-branch of lines 97-99 returns 0. -/
def get_total_message_count (queryResult : Except String (List Int)) : Int :=
  match queryResult with
  | Except.ok buckets => buckets.foldl (fun acc b => acc + b) 0
  | Except.error _ => 0

/-! ## Geocoding normalizer (convert_country_codes_to_names, lines 101-109) -/

/-- The key function of the comprehension on line 109:
`country_name_mapping.get(k, k)` where `country_name_mapping[code]` was set
iff `pycountry.countries.get(alpha_2=code)` resolved. The pycountry alpha-2
table is the `alpha2` parameter. An unresolved key only triggers a log
warning (line 108) and is kept unchanged. -/
def normalize_key (alpha2 : String → Option String) (k : String) : String :=
  (alpha2 k).getD k

/-- `{country_name_mapping.get(k, k): v for k, v in country_counts.items()}`:
a dict comprehension, so colliding normalized keys overwrite (last value
wins, position of the first insertion kept). -/
def convert_country_codes_to_names (alpha2 : String → Option String)
    (country_counts : List (String × Int)) : List (String × Int) :=
  country_counts.foldl (fun d kv => dictSet d (normalize_key alpha2 kv.1) kv.2) []

/-! ## World map (generate_world_map, lines 111-177) -/

/-- The fixed override table of lines 119-138, verbatim. -/
def country_name_mapping : List (String × String) :=
  [("United States", "United States of America"),
   ("Russia", "Russian Federation"),
   ("South Korea", "Korea, Republic of"),
   ("North Korea", "Korea, Democratic People\x27s Republic of"),
   ("Iran", "Iran, Islamic Republic of"),
   ("Syria", "Syrian Arab Republic"),
   ("Venezuela", "Venezuela, Bolivarian Republic of"),
   ("Bolivia", "Bolivia, Plurinational State of"),
   ("Moldova", "Moldova, Republic of"),
   ("Macedonia", "North Macedonia"),
   ("Vietnam", "Viet Nam"),
   ("Laos", "Lao People\x27s Democratic Republic"),
   ("Brunei", "Brunei Darussalam"),
   ("Tanzania", "Tanzania, United Republic of"),
   ("Congo", "Congo, Republic of the"),
   ("Ivory Coast", "Côte d\x27Ivoire"),
   ("Cape Verde", "Cabo Verde"),
   ("East Timor", "Timor-Leste")]

/-- `country_name_mapping.get(country, country)` (line 145). -/
def shapefile_name (country : String) : String :=
  (alookup country_name_mapping country).getD country

/-- Circle-size constants (lines 164-166). -/
def max_size : Int := 5000

def min_size : Int := 50

def scale_factor : Int := 5

/-- `max(min_size, min(max_size, size * scale_factor))` (line 167). -/
def scaled_size (size : Int) : Int :=
  max min_size (min max_size (size * scale_factor))

/-- The `scaled_sizes` list comprehension of line 167. -/
def scaled_sizes (sizes : List Int) : List Int := sizes.map scaled_size

/-- `generate_world_map`, data content: `world` is the list of `ADMIN` names
of the shapefile. The loop of lines 144-151 keeps exactly the normalized
entries whose shapefile name occurs in the shapefile (missing ones are only
logged); line 153-155 returns `None` when nothing matched, otherwise the
plotted (country, count) pairs — the rendered PNG buffer is opaque, its data
content is this list. -/
def generate_world_map (world : List String) (alpha2 : String → Option String)
    (country_counts : List (String × Int)) : Option (List (String × Int)) :=
  let normalized := convert_country_codes_to_names alpha2 country_counts
  let geometry := normalized.filter fun kv => world.contains (shapefile_name kv.1)
  if geometry.isEmpty then none else some geometry

/-! ## Report assembly (generate_pdf, lines 179-281) -/

/-- The record-derived figures of the General Overview block plus the
separately queried total message count printed above them. -/
structure SummaryTotals where
  total_message_count : Int
  total_messages : Int
  dkim_aligned : Int
  dkim_unaligned : Int
  spf_passed : Int
  spf_failed : Int
  dmarc_passed : Int
  dmarc_failed : Int
deriving DecidableEq

/-- The totals block of lines 214-228. -/
def computeSummaryTotals (tmc : Int) (records : List AuthenticationRecord) :
    SummaryTotals :=
  { total_message_count := tmc
    total_messages := total_messages records
    dkim_aligned := total_dkim_aligned records
    dkim_unaligned := total_dkim_unaligned records
    spf_passed := total_spf_passed records
    spf_failed := total_spf_failed records
    dmarc_passed := total_dmarc_passed records
    dmarc_failed := total_dmarc_failed records }

/-- The content placed on the document, in layout order. -/
inductive ReportSection where
  | logo
  | contactHeader (text : String)
  | title (domain : String)
  | generalOverview (totals : SummaryTotals)
  | countryRankingList (entries : List (String × Int))
  | mapImage (plotted : List (String × Int))
  | pageBreak
  | organizationRanking (entries : List (String × String × Int))
deriving DecidableEq

/-- The contact block of line 200. -/
def contact_details : String :=
  "Contact Details:\nName: David Hill\nEmail: david@neozeit.com\nPhone: 061-058-4433"

/-- `generate_pdf`, section structure: lines 191-245 always emit the first
page (logo, contact details, title, overview, country ranking); the map
image, the page break and the Reporting Organizations section are all inside
`if map_buffer:` (lines 249-277), so they appear only when
`generate_world_map` returned a buffer. -/
def generate_pdf (world : List String) (alpha2 : String → Option String)
    (records : List AuthenticationRecord) (domain : String)
    (total_message_count : Int) : List ReportSection :=
  [ReportSection.logo,
   ReportSection.contactHeader contact_details,
   ReportSection.title domain,
   ReportSection.generalOverview (computeSummaryTotals total_message_count records),
   ReportSection.countryRankingList (sorted_country_counts records)] ++
  (match generate_world_map world alpha2 (country_counts records) with
   | some plotted =>
     [ReportSection.mapImage plotted,
      ReportSection.pageBreak,
      ReportSection.organizationRanking (sorted_org_data records)]
   | none => [])

/-! ## Concrete external data used by the closed theorems -/

/-- A fragment of the ISO 3166 alpha-2 table served by the external
`pycountry` library (`pycountry.countries.get(alpha_2=code)`), restricted to
the codes the concrete inputs below use; every other code resolves to
nothing, as pycountry does for an unknown code. -/
def pycountry_alpha2 : String → Option String := fun code =>
  alookup [("US", "United States"), ("DE", "Germany"),
           ("RU", "Russia"), ("ZA", "South Africa")] code

/-- A fragment of the `ADMIN` column of the external shapefile
`data/ne_110m_admin_0_countries.shp`. -/
def world_demo : List String :=
  ["Germany", "United States of America", "Russian Federation", "South Africa"]

/-- Spec-side definition, from the spec's words: marker size =
`clamp(count × 5, 50, 5000)`, clamped to [min=50, max=5000]. Compared with
the code's `scaled_size` in the C9 theorem. -/
def clampSpec (x lo hi : Int) : Int := max lo (min x hi)

/-- Sum of the counts of a country→count dictionary. -/
def sumCounts (l : List (String × Int)) : Int := (l.map Prod.snd).sum

/-! ## Concrete inputs for the closed theorems -/

def rOrgA1 : AuthenticationRecord :=
  ⟨some 1, none, none, none, none, some "A", some "first@a.example"⟩

def rOrgA2 : AuthenticationRecord :=
  ⟨some 2, none, none, none, none, some "A", some "last@a.example"⟩

def rXX : AuthenticationRecord :=
  ⟨some 5, none, none, none, some "XX", none, none⟩

def c10_input : List (String × Int) := [("US", 10), ("United States", 5)]

def rUS : AuthenticationRecord :=
  ⟨some 10, some true, some true, some true, some "US", some "google.com",
   some "noreply-dmarc@google.com"⟩

def rNoCount : AuthenticationRecord :=
  ⟨none, some true, some false, some true, some "DE", some "B", some "b@x.example"⟩

def rNoFlags : AuthenticationRecord :=
  ⟨some 4, none, none, none, some "DE", some "B", some "b@x.example"⟩

/-- The countries of a record list in order of first occurrence, skipping
those already in `seen`: the spec's "first-seen relative order" of the
groups, used to characterize the key order of `country_counts`. -/
def firstSeenCountries : List AuthenticationRecord → List String → List String
  | [], _ => []
  | r :: rest, seen =>
    if countryD r ∈ seen then firstSeenCountries rest seen
    else countryD r :: firstSeenCountries rest (seen ++ [countryD r])

/-! ## Helper lemmas -/

/-- Splitting a mapped sum along a Boolean predicate. -/
theorem sum_filter_split {α : Type} (p : α → Bool) (f : α → Int) (l : List α) :
    ((l.filter p).map f).sum + ((l.filter fun x => !p x).map f).sum = (l.map f).sum := by
  induction l with
  | nil => simp
  | cons a l ih =>
    cases hp : p a <;> simp [List.filter_cons, hp] <;> omega

/-- Looking up a key that is absent from an association list. -/
theorem alookup_eq_none {α : Type} (d : List (String × α)) (k : String)
    (h : k ∉ d.map Prod.fst) : alookup d k = none := by
  induction d with
  | nil => rfl
  | cons p rest ih =>
    simp only [List.map_cons, List.mem_cons] at h
    push_neg at h
    simp only [alookup]
    rw [if_neg fun he => h.1 he.symm, ih h.2]

/-- Lookup after a counting dict update. -/
theorem alookup_dictInsertAdd (d : List (String × Int)) (k k₀ : String) (v : Int) :
    alookup (dictInsertAdd d k v) k₀ =
      if k₀ = k then some ((alookup d k).getD 0 + v) else alookup d k₀ := by
  induction d with
  | nil =>
    by_cases h : k₀ = k
    · simp [dictInsertAdd, alookup, h]
    · have h' : ¬k = k₀ := fun he => h he.symm
      simp [dictInsertAdd, alookup, h, h']
  | cons p rest ih =>
    obtain ⟨k₁, v₁⟩ := p
    by_cases h₁ : k₁ = k
    · subst h₁
      by_cases h₀ : k₀ = k₁
      · simp [dictInsertAdd, alookup, h₀]
      · have h₀' : ¬k₁ = k₀ := fun he => h₀ he.symm
        simp [dictInsertAdd, alookup, h₀, h₀']
    · by_cases h₀ : k₀ = k₁
      · subst h₀
        have hk : ¬k₀ = k := fun h => h₁ (h ▸ rfl)
        simp [dictInsertAdd, alookup, h₁, hk]
      · have h₀' : k₁ ≠ k₀ := fun h => h₀ h.symm
        simp [dictInsertAdd, alookup, h₁, h₀', ih]

/-- Key order after a counting dict update: existing keys keep their
positions, a new key is appended. -/
theorem keys_dictInsertAdd (d : List (String × Int)) (k : String) (v : Int) :
    (dictInsertAdd d k v).map Prod.fst =
      if k ∈ d.map Prod.fst then d.map Prod.fst else d.map Prod.fst ++ [k] := by
  induction d with
  | nil => simp [dictInsertAdd]
  | cons p rest ih =>
    obtain ⟨k₁, v₁⟩ := p
    by_cases h₁ : k₁ = k
    · simp [dictInsertAdd, h₁]
    · have : ¬k = k₁ := fun h => h₁ h.symm
      by_cases hm : k ∈ rest.map Prod.fst <;>
        simp [dictInsertAdd, h₁, this, hm, ih]

/-- Folding `country_counts` over more records only adds the per-country
sums of the new records (looked up with default 0). -/
theorem country_foldl_getD (records : List AuthenticationRecord)
    (d : List (String × Int)) (c : String) :
    (alookup (records.foldl (fun d r => dictInsertAdd d (countryD r) (mcD r)) d) c).getD 0 =
      (alookup d c).getD 0 + ((records.filter fun r => countryD r == c).map mcD).sum := by
  induction records generalizing d with
  | nil => simp
  | cons r rest ih =>
    simp only [List.foldl_cons, List.filter_cons]
    rw [ih, alookup_dictInsertAdd]
    by_cases h : c = countryD r
    · subst h
      simp
      omega
    · have hb : (countryD r == c) = false := by
        simp only [beq_eq_false_iff_ne, ne_eq]
        exact fun he => h he.symm
      simp [if_neg h, hb]

/-- A country has an entry in the fold exactly when it already had one or a
new record mentions it. -/
theorem country_foldl_isSome (records : List AuthenticationRecord)
    (d : List (String × Int)) (c : String) :
    (alookup (records.foldl (fun d r => dictInsertAdd d (countryD r) (mcD r)) d) c).isSome =
      ((alookup d c).isSome || records.any fun r => countryD r == c) := by
  induction records generalizing d with
  | nil => simp
  | cons r rest ih =>
    simp only [List.foldl_cons, List.any_cons]
    rw [ih, alookup_dictInsertAdd]
    by_cases h : c = countryD r
    · subst h
      simp
    · have hb : (countryD r == c) = false := by
        simp only [beq_eq_false_iff_ne, ne_eq]
        exact fun he => h he.symm
      simp [if_neg h, hb]

/-- The key order of the `country_counts` fold: the keys already present,
followed by the new countries in first-seen order. -/
theorem keys_country_foldl (records : List AuthenticationRecord)
    (d : List (String × Int)) :
    ((records.foldl (fun d r => dictInsertAdd d (countryD r) (mcD r)) d).map Prod.fst) =
      d.map Prod.fst ++ firstSeenCountries records (d.map Prod.fst) := by
  induction records generalizing d with
  | nil => simp [firstSeenCountries]
  | cons r rest ih =>
    simp only [List.foldl_cons, firstSeenCountries]
    by_cases h : countryD r ∈ d.map Prod.fst
    · rw [if_pos h, ih, keys_dictInsertAdd, if_pos h]
    · rw [if_neg h, ih, keys_dictInsertAdd, if_neg h]
      simp

/-- The first-seen country list has no duplicates and avoids `seen`. -/
theorem firstSeenCountries_nodup (records : List AuthenticationRecord)
    (seen : List String) :
    (firstSeenCountries records seen).Nodup ∧
    ∀ c ∈ firstSeenCountries records seen, c ∉ seen := by
  induction records generalizing seen with
  | nil => simp [firstSeenCountries]
  | cons r rest ih =>
    simp only [firstSeenCountries]
    by_cases h : countryD r ∈ seen
    · simpa [h] using ih seen
    · obtain ⟨hnd, hni⟩ := ih (seen ++ [countryD r])
      rw [if_neg h]
      constructor
      · refine List.Nodup.cons (fun hc => ?_) hnd
        exact hni _ hc (by simp)
      · intro c hc
        rcases List.mem_cons.mp hc with rfl | hc
        · exact h
        · intro hcs
          exact hni c hc (by simp [hcs])

/-- Inserting an element keeps it before all already-present elements of the
same key: skipped elements have strictly larger keys. -/
theorem filter_orderedInsert_key {α : Type} (f : α → Int) (x : α) (l : List α) :
    (List.orderedInsert (keyDesc f) x l).filter (fun y => f y == f x) =
      x :: l.filter fun y => f y == f x := by
  induction l with
  | nil => simp
  | cons b l ih =>
    simp only [List.orderedInsert]
    by_cases h : keyDesc f x b
    · rw [if_pos h]
      simp [List.filter_cons]
    · rw [if_neg h]
      have hb : (f b == f x) = false := by
        simp only [keyDesc, not_le] at h
        simp only [beq_eq_false_iff_ne, ne_eq]
        omega
      simp [List.filter_cons, hb, ih]

/-- Inserting an element of a different key leaves the filtered list
unchanged. -/
theorem filter_orderedInsert_ne {α : Type} (f : α → Int) (x : α) (m : Int)
    (l : List α) (hx : f x ≠ m) :
    (List.orderedInsert (keyDesc f) x l).filter (fun y => f y == m) =
      l.filter fun y => f y == m := by
  have hxb : (f x == m) = false := by
    simp only [beq_eq_false_iff_ne, ne_eq]
    exact hx
  induction l with
  | nil => simp [hxb]
  | cons b l ih =>
    simp only [List.orderedInsert]
    by_cases h : keyDesc f x b
    · rw [if_pos h]
      simp [List.filter_cons, hxb]
    · rw [if_neg h]
      simp [List.filter_cons, ih]

/-- Stability of the descending insertion sort: for every key value, the
elements carrying that key appear in the sorted output exactly in their
input order. -/
theorem insertionSort_filter_key {α : Type} (f : α → Int) (m : Int) (l : List α) :
    (List.insertionSort (keyDesc f) l).filter (fun y => f y == m) =
      l.filter fun y => f y == m := by
  induction l with
  | nil => rfl
  | cons a l ih =>
    simp only [List.insertionSort]
    by_cases h : f a = m
    · subst h
      rw [filter_orderedInsert_key, ih]
      simp [List.filter_cons]
    · rw [filter_orderedInsert_ne _ _ _ _ h, ih]
      simp [List.filter_cons, h]

/-- Lookup after an `org_data` update: an existing name accumulates its
message total and keeps its stored email; a new name stores the record's
email. -/
theorem orgLookup_orgInsert (d : List (String × String × Int)) (n e : String)
    (m : Int) (n₀ : String) :
    orgLookup (orgInsert d n e m) n₀ =
      if n₀ = n then
        match orgLookup d n with
        | some p => some (p.1, p.2 + m)
        | none => some (e, m)
      else orgLookup d n₀ := by
  induction d with
  | nil =>
    by_cases h : n₀ = n
    · simp [orgInsert, orgLookup, h]
    · have h' : ¬n = n₀ := fun he => h he.symm
      simp [orgInsert, orgLookup, h, h']
  | cons p rest ih =>
    obtain ⟨n₁, e₁, m₁⟩ := p
    by_cases h₁ : n₁ = n
    · subst h₁
      by_cases h₀ : n₀ = n₁
      · simp [orgInsert, orgLookup, h₀]
      · have h₀' : ¬n₁ = n₀ := fun he => h₀ he.symm
        simp [orgInsert, orgLookup, h₀, h₀']
    · by_cases h₀ : n₀ = n₁
      · subst h₀
        have hk : ¬n₀ = n := fun h => h₁ (h ▸ rfl)
        simp [orgInsert, orgLookup, h₁, hk]
      · have h₀' : n₁ ≠ n₀ := fun h => h₀ h.symm
        simp [orgInsert, orgLookup, h₁, h₀', ih]

/-- Message totals of the `org_data` fold: each name accumulates the
message counts of its records. -/
theorem org_foldl_messages (records : List AuthenticationRecord)
    (d : List (String × String × Int)) (n : String) :
    ((orgLookup (records.foldl (fun d r => orgInsert d (orgNameD r) (orgEmailD r) (mcD r)) d) n).map
        (fun p => p.2)).getD 0 =
      ((orgLookup d n).map (fun p => p.2)).getD 0 +
        ((records.filter fun r => orgNameD r == n).map mcD).sum := by
  induction records generalizing d with
  | nil => simp
  | cons r rest ih =>
    simp only [List.foldl_cons, List.filter_cons]
    rw [ih, orgLookup_orgInsert]
    by_cases h : n = orgNameD r
    · subst h
      cases hd : orgLookup d (orgNameD r) <;> (simp [hd]; try omega)
    · have hb : (orgNameD r == n) = false := by
        simp only [beq_eq_false_iff_ne, ne_eq]
        exact fun he => h he.symm
      simp [if_neg h, hb]

/-- Stored emails of the `org_data` fold: a name already present keeps its
email; a new name gets the email of its FIRST record. -/
theorem org_foldl_email (records : List AuthenticationRecord)
    (d : List (String × String × Int)) (n : String) :
    (orgLookup (records.foldl (fun d r => orgInsert d (orgNameD r) (orgEmailD r) (mcD r)) d) n).map
        (fun p => p.1) =
      match orgLookup d n with
      | some p => some p.1
      | none => (records.find? fun r => orgNameD r == n).map orgEmailD := by
  induction records generalizing d with
  | nil => cases hd : orgLookup d n <;> simp [hd]
  | cons r rest ih =>
    simp only [List.foldl_cons, List.find?]
    rw [ih, orgLookup_orgInsert]
    by_cases h : n = orgNameD r
    · subst h
      cases hd : orgLookup d (orgNameD r) <;> simp [hd]
    · have hb : (orgNameD r == n) = false := by
        simp only [beq_eq_false_iff_ne, ne_eq]
        exact fun he => h he.symm
      simp only [if_neg h, hb]

/-- Presence in the `org_data` fold. -/
theorem org_foldl_isSome (records : List AuthenticationRecord)
    (d : List (String × String × Int)) (n : String) :
    (orgLookup (records.foldl (fun d r => orgInsert d (orgNameD r) (orgEmailD r) (mcD r)) d) n).isSome =
      ((orgLookup d n).isSome || records.any fun r => orgNameD r == n) := by
  induction records generalizing d with
  | nil => simp
  | cons r rest ih =>
    simp only [List.foldl_cons, List.any_cons]
    rw [ih, orgLookup_orgInsert]
    by_cases h : n = orgNameD r
    · subst h
      cases hd : orgLookup d (orgNameD r) <;> simp [hd]
    · have hb : (orgNameD r == n) = false := by
        simp only [beq_eq_false_iff_ne, ne_eq]
        exact fun he => h he.symm
      simp [if_neg h, hb]

/-- Key order after an `org_data` update. -/
theorem keys_orgInsert (d : List (String × String × Int)) (n e : String) (m : Int) :
    (orgInsert d n e m).map Prod.fst =
      if n ∈ d.map Prod.fst then d.map Prod.fst else d.map Prod.fst ++ [n] := by
  induction d with
  | nil => simp [orgInsert]
  | cons p rest ih =>
    obtain ⟨n₁, e₁, m₁⟩ := p
    by_cases h₁ : n₁ = n
    · simp [orgInsert, h₁]
    · have h' : ¬n = n₁ := fun h => h₁ h.symm
      by_cases hm : n ∈ rest.map Prod.fst <;>
        simp [orgInsert, h₁, h', hm, ih]

/-- The `org_data` fold keeps the organization names free of duplicates. -/
theorem nodup_keys_org_foldl (records : List AuthenticationRecord)
    (d : List (String × String × Int)) (h : (d.map Prod.fst).Nodup) :
    (((records.foldl (fun d r => orgInsert d (orgNameD r) (orgEmailD r) (mcD r)) d)).map Prod.fst).Nodup := by
  induction records generalizing d with
  | nil => exact h
  | cons r rest ih =>
    simp only [List.foldl_cons]
    refine ih _ ?_
    rw [keys_orgInsert]
    by_cases hm : orgNameD r ∈ d.map Prod.fst
    · simpa [hm] using h
    · rw [if_neg hm]
      simp [List.nodup_append, h, hm]

/-- Inserting a record whose message count defaults to 0 never changes a
filtered message sum. -/
theorem sum_filter_insert_zero (p : AuthenticationRecord → Bool)
    (l₁ l₂ : List AuthenticationRecord) (r : AuthenticationRecord)
    (h : mcD r = 0) :
    (((l₁ ++ r :: l₂).filter p).map mcD).sum =
      (((l₁ ++ l₂).filter p).map mcD).sum := by
  cases hp : p r <;>
    simp [List.filter_append, List.filter_cons, hp, h]

/-- The value of a country entry is the message sum of that country's
records. -/
theorem country_counts_getD (records : List AuthenticationRecord) (c : String) :
    (alookup (country_counts records) c).getD 0 =
      ((records.filter fun r => countryD r == c).map mcD).sum := by
  simpa [country_counts, alookup] using country_foldl_getD records [] c

/-- The message total of an organization entry is the message sum of that
organization's records. -/
theorem org_data_messages (records : List AuthenticationRecord) (n : String) :
    ((orgLookup (org_data records) n).map (fun p => p.2)).getD 0 =
      ((records.filter fun r => orgNameD r == n).map mcD).sum := by
  simpa [org_data, orgLookup] using org_foldl_messages records [] n

/-! ## Claim theorems -/

/-- C3: for every record sequence, aligned plus unaligned messages equal the
total messages for each of the DKIM, SPF and DMARC dimensions, all computed
over the same record list. -/
theorem summary_totals_partition (records : List AuthenticationRecord) :
    total_dkim_aligned records + total_dkim_unaligned records = total_messages records ∧
    total_spf_passed records + total_spf_failed records = total_messages records ∧
    total_dmarc_passed records + total_dmarc_failed records = total_messages records :=
  ⟨sum_filter_split (fun r => dkimD r) mcD records,
   sum_filter_split (fun r => spfD r) mcD records,
   sum_filter_split (fun r => dmarcD r) mcD records⟩

/-- C6: the empty record sequence gives all-zero summary totals, empty
country and organization rankings, and (all involved functions being total)
no exception. -/
theorem empty_input_aggregation :
    total_messages [] = 0 ∧ total_dkim_aligned [] = 0 ∧ total_dkim_unaligned [] = 0 ∧
    total_spf_passed [] = 0 ∧ total_spf_failed [] = 0 ∧
    total_dmarc_passed [] = 0 ∧ total_dmarc_failed [] = 0 ∧
    sorted_country_counts [] = [] ∧ sorted_org_data [] = [] ∧
    computeSummaryTotals 0 [] = ⟨0, 0, 0, 0, 0, 0, 0, 0⟩ := by
  decide

/-- C7: a failed store query makes collect_records return the empty record
list and get_total_message_count return 0, for every error; the fault is not
propagated. -/
theorem store_failure_defaults (e₁ e₂ : String) :
    collect_records (Except.error e₁) = [] ∧
    get_total_message_count (Except.error e₂) = 0 :=
  ⟨rfl, rfl⟩

/-- C9: every marker size equals clamp(count × 5, 50, 5000), and the three
constants are exactly 5, 50, 5000. -/
theorem map_circle_sizing (count : Int) (sizes : List Int) :
    scaled_size count = clampSpec (count * 5) 50 5000 ∧
    min_size = 50 ∧ max_size = 5000 ∧ scale_factor = 5 ∧
    scaled_sizes sizes = sizes.map fun s => clampSpec (s * 5) 50 5000 := by
  refine ⟨?_, rfl, rfl, rfl, ?_⟩
  · simp [scaled_size, clampSpec, min_size, max_size, scale_factor, min_comm]
  · simp only [scaled_sizes]
    refine List.map_congr_left fun s _ => ?_
    simp [scaled_size, clampSpec, min_size, max_size, scale_factor, min_comm]

/-- C10: convert_country_codes_to_names is not count-preserving: "US" and
"United States" both normalize to "United States", the later key's count
overwrites the earlier one, and the output total is strictly below the input
total. -/
theorem convert_loses_counts :
    normalize_key pycountry_alpha2 "US" = "United States" ∧
    normalize_key pycountry_alpha2 "United States" = "United States" ∧
    convert_country_codes_to_names pycountry_alpha2 c10_input = [("United States", 5)] ∧
    sumCounts (convert_country_codes_to_names pycountry_alpha2 c10_input) <
      sumCounts c10_input := by
  decide

/-- C1 (amended): the organization ranking has one entry per distinct
org_name (no duplicate names, a name present exactly when a record carries
it), each entry's message total is the sum of message_count over all records
with that name, and the stored email is the one of the FIRST record with
that name (first-seen wins, not last-seen). -/
theorem org_ranking_grouping (records : List AuthenticationRecord) :
    ((sorted_org_data records).map Prod.fst).Nodup ∧
    List.Perm (sorted_org_data records) (org_data records) ∧
    (∀ n, ((orgLookup (org_data records) n).map (fun p => p.2)).getD 0 =
      ((records.filter fun r => orgNameD r == n).map mcD).sum) ∧
    (∀ n, (orgLookup (org_data records) n).map (fun p => p.1) =
      (records.find? fun r => orgNameD r == n).map orgEmailD) ∧
    (∀ n, (orgLookup (org_data records) n).isSome =
      records.any fun r => orgNameD r == n) := by
  have hperm : List.Perm (sorted_org_data records) (org_data records) :=
    List.perm_insertionSort _ _
  refine ⟨?_, hperm, ?_, ?_, ?_⟩
  · exact ((hperm.map Prod.fst).nodup_iff).mpr
      (nodup_keys_org_foldl records [] (by simp))
  · intro n
    simpa [org_data, orgLookup] using org_foldl_messages records [] n
  · intro n
    simpa [org_data, orgLookup] using org_foldl_email records [] n
  · intro n
    simpa [org_data, orgLookup] using org_foldl_isSome records [] n

/-- C4: the country ranking groups the records by source_country (default
"Unknown"), sums message_count per group (an entry exists exactly for the
countries occurring in the records, keys are distinct and in first-seen
order), and is sorted non-increasingly by count; entries with equal counts
keep their first-seen relative order (stability). -/
theorem country_ranking_correct (records : List AuthenticationRecord) :
    (∀ c, (alookup (country_counts records) c).getD 0 =
      ((records.filter fun r => countryD r == c).map mcD).sum) ∧
    (∀ c, (alookup (country_counts records) c).isSome =
      records.any fun r => countryD r == c) ∧
    (country_counts records).map Prod.fst = firstSeenCountries records [] ∧
    ((country_counts records).map Prod.fst).Nodup ∧
    List.Perm (sorted_country_counts records) (country_counts records) ∧
    List.Sorted (keyDesc Prod.snd) (sorted_country_counts records) ∧
    (∀ m : Int, (sorted_country_counts records).filter (fun p => p.2 == m) =
      (country_counts records).filter fun p => p.2 == m) := by
  have hkeys : (country_counts records).map Prod.fst = firstSeenCountries records [] := by
    simpa [country_counts] using keys_country_foldl records []
  refine ⟨?_, ?_, hkeys, ?_, List.perm_insertionSort _ _, ?_, ?_⟩
  · intro c
    simpa [country_counts, alookup] using country_foldl_getD records [] c
  · intro c
    simpa [country_counts, alookup] using country_foldl_isSome records [] c
  · rw [hkeys]
    exact (firstSeenCountries_nodup records []).1
  · exact List.sorted_insertionSort _ _
  · intro m
    exact insertionSort_filter_key Prod.snd m (country_counts records)

/-- C1 counterexample: two records for organization "A" carrying different
emails; the final entry keeps the FIRST record's email (the code writes the
email only when the name is new), while the claim says the last record's
email wins. -/
theorem org_email_not_last_seen :
    sorted_org_data [rOrgA1, rOrgA2] = [("A", "first@a.example", 3)] ∧
    orgEmailD rOrgA2 = "last@a.example" ∧
    ("first@a.example" : String) ≠ "last@a.example" := by
  decide

/-- C2 counterexample: a non-empty record list whose only country "XX" is
absent from the map geometry; generate_world_map returns None and the
document then contains neither the map image nor the organization ranking,
against the claim that every listed section is always present. -/
theorem org_section_missing_counterexample :
    generate_pdf world_demo pycountry_alpha2 [rXX] "example.com" 5 =
      [ReportSection.logo,
       ReportSection.contactHeader contact_details,
       ReportSection.title "example.com",
       ReportSection.generalOverview ⟨5, 5, 0, 5, 0, 5, 0, 5⟩,
       ReportSection.countryRankingList [("XX", 5)]] ∧
    ([rXX] : List AuthenticationRecord) ≠ [] := by
  decide

/-- C5: a record without message_count contributes 0 to every aggregate it
participates in (overall totals, every per-dimension total, every country
ranking entry, every organization message total), and a record without a
boolean flag is counted on the failed/unaligned side of that dimension; all
aggregation functions are total Lean functions, so no error is raised on
missing fields. -/
theorem missing_field_defaults (l₁ l₂ l : List AuthenticationRecord)
    (r s : AuthenticationRecord)
    (hmc : r.message_count = none)
    (hdk : s.dkim_aligned = none) (hsp : s.spf_aligned = none)
    (hdm : s.passed_dmarc = none) :
    total_messages (l₁ ++ r :: l₂) = total_messages (l₁ ++ l₂) ∧
    total_dkim_aligned (l₁ ++ r :: l₂) = total_dkim_aligned (l₁ ++ l₂) ∧
    total_dkim_unaligned (l₁ ++ r :: l₂) = total_dkim_unaligned (l₁ ++ l₂) ∧
    total_spf_passed (l₁ ++ r :: l₂) = total_spf_passed (l₁ ++ l₂) ∧
    total_spf_failed (l₁ ++ r :: l₂) = total_spf_failed (l₁ ++ l₂) ∧
    total_dmarc_passed (l₁ ++ r :: l₂) = total_dmarc_passed (l₁ ++ l₂) ∧
    total_dmarc_failed (l₁ ++ r :: l₂) = total_dmarc_failed (l₁ ++ l₂) ∧
    (∀ c, (alookup (country_counts (l₁ ++ r :: l₂)) c).getD 0 =
      (alookup (country_counts (l₁ ++ l₂)) c).getD 0) ∧
    (∀ n, ((orgLookup (org_data (l₁ ++ r :: l₂)) n).map (fun p => p.2)).getD 0 =
      ((orgLookup (org_data (l₁ ++ l₂)) n).map (fun p => p.2)).getD 0) ∧
    total_dkim_aligned (s :: l) = total_dkim_aligned l ∧
    total_dkim_unaligned (s :: l) = mcD s + total_dkim_unaligned l ∧
    total_spf_passed (s :: l) = total_spf_passed l ∧
    total_spf_failed (s :: l) = mcD s + total_spf_failed l ∧
    total_dmarc_passed (s :: l) = total_dmarc_passed l ∧
    total_dmarc_failed (s :: l) = mcD s + total_dmarc_failed l := by
  have h0 : mcD r = 0 := by simp [mcD, hmc]
  have hdkf : dkimD s = false := by simp [dkimD, hdk]
  have hspf : spfD s = false := by simp [spfD, hsp]
  have hdmf : dmarcD s = false := by simp [dmarcD, hdm]
  refine ⟨?_, ?_, ?_, ?_, ?_, ?_, ?_, ?_, ?_, ?_, ?_, ?_, ?_, ?_, ?_⟩
  · simp [total_messages, h0]
  · simpa [total_dkim_aligned] using
      sum_filter_insert_zero (fun x => dkimD x) l₁ l₂ r h0
  · simpa [total_dkim_unaligned] using
      sum_filter_insert_zero (fun x => !dkimD x) l₁ l₂ r h0
  · simpa [total_spf_passed] using
      sum_filter_insert_zero (fun x => spfD x) l₁ l₂ r h0
  · simpa [total_spf_failed] using
      sum_filter_insert_zero (fun x => !spfD x) l₁ l₂ r h0
  · simpa [total_dmarc_passed] using
      sum_filter_insert_zero (fun x => dmarcD x) l₁ l₂ r h0
  · simpa [total_dmarc_failed] using
      sum_filter_insert_zero (fun x => !dmarcD x) l₁ l₂ r h0
  · intro c
    rw [country_counts_getD, country_counts_getD]
    exact sum_filter_insert_zero (fun x => countryD x == c) l₁ l₂ r h0
  · intro n
    rw [org_data_messages, org_data_messages]
    exact sum_filter_insert_zero (fun x => orgNameD x == n) l₁ l₂ r h0
  · simp [total_dkim_aligned, List.filter_cons, hdkf]
  · simp [total_dkim_unaligned, List.filter_cons, hdkf]
  · simp [total_spf_passed, List.filter_cons, hspf]
  · simp [total_spf_failed, List.filter_cons, hspf]
  · simp [total_dmarc_passed, List.filter_cons, hdmf]
  · simp [total_dmarc_failed, List.filter_cons, hdmf]

/-- C5 witness: the theorem applied at a record without message_count and a
record without any boolean flag, among concrete records. -/
theorem missing_field_defaults_witness :
    rNoCount.message_count = none ∧ rNoFlags.dkim_aligned = none ∧
    rNoFlags.spf_aligned = none ∧ rNoFlags.passed_dmarc = none ∧
    (total_messages ([rUS] ++ rNoCount :: []) = total_messages ([rUS] ++ []) ∧
     total_dkim_aligned ([rUS] ++ rNoCount :: []) = total_dkim_aligned ([rUS] ++ []) ∧
     total_dkim_unaligned ([rUS] ++ rNoCount :: []) = total_dkim_unaligned ([rUS] ++ []) ∧
     total_spf_passed ([rUS] ++ rNoCount :: []) = total_spf_passed ([rUS] ++ []) ∧
     total_spf_failed ([rUS] ++ rNoCount :: []) = total_spf_failed ([rUS] ++ []) ∧
     total_dmarc_passed ([rUS] ++ rNoCount :: []) = total_dmarc_passed ([rUS] ++ []) ∧
     total_dmarc_failed ([rUS] ++ rNoCount :: []) = total_dmarc_failed ([rUS] ++ []) ∧
     (∀ c, (alookup (country_counts ([rUS] ++ rNoCount :: [])) c).getD 0 =
       (alookup (country_counts ([rUS] ++ [])) c).getD 0) ∧
     (∀ n, ((orgLookup (org_data ([rUS] ++ rNoCount :: [])) n).map (fun p => p.2)).getD 0 =
       ((orgLookup (org_data ([rUS] ++ [])) n).map (fun p => p.2)).getD 0) ∧
     total_dkim_aligned (rNoFlags :: [rUS]) = total_dkim_aligned [rUS] ∧
     total_dkim_unaligned (rNoFlags :: [rUS]) = mcD rNoFlags + total_dkim_unaligned [rUS] ∧
     total_spf_passed (rNoFlags :: [rUS]) = total_spf_passed [rUS] ∧
     total_spf_failed (rNoFlags :: [rUS]) = mcD rNoFlags + total_spf_failed [rUS] ∧
     total_dmarc_passed (rNoFlags :: [rUS]) = total_dmarc_passed [rUS] ∧
     total_dmarc_failed (rNoFlags :: [rUS]) = mcD rNoFlags + total_dmarc_failed [rUS]) :=
  ⟨rfl, rfl, rfl, rfl,
   missing_field_defaults [rUS] [] [rUS] rNoCount rNoFlags rfl rfl rfl rfl⟩

/-- C8: a key the code table cannot resolve is kept unchanged by
normalization (as a key of the normalized dictionary); the override table is
a deterministic map sending each listed canonical name to its dataset
spelling and leaving every other name unchanged. -/
theorem geocoding_normalization (alpha2 : String → Option String) (k : String)
    (v : Int) (h : alpha2 k = none) :
    normalize_key alpha2 k = k ∧
    convert_country_codes_to_names alpha2 [(k, v)] = [(k, v)] ∧
    (∀ p ∈ country_name_mapping, shapefile_name p.1 = p.2) ∧
    (∀ name, name ∉ country_name_mapping.map Prod.fst → shapefile_name name = name) := by
  refine ⟨?_, ?_, by decide, ?_⟩
  · simp [normalize_key, h]
  · simp [convert_country_codes_to_names, dictSet, normalize_key, h]
  · intro name hn
    simp [shapefile_name, alookup_eq_none _ _ hn]

/-- C8 witness at the canonical name "Germany", which is not a resolvable
two-letter code and not in the override table. -/
theorem geocoding_normalization_witness :
    pycountry_alpha2 "Germany" = none ∧
    (normalize_key pycountry_alpha2 "Germany" = "Germany" ∧
     convert_country_codes_to_names pycountry_alpha2 [("Germany", 3)] = [("Germany", 3)] ∧
     (∀ p ∈ country_name_mapping, shapefile_name p.1 = p.2) ∧
     (∀ name, name ∉ country_name_mapping.map Prod.fst → shapefile_name name = name)) :=
  ⟨by decide, geocoding_normalization pycountry_alpha2 "Germany" 3 (by decide)⟩

/-- C2 (amended): for every domain and non-empty record sequence the document
contains the contact header, the title, the general-overview block and the
country ranking list; the map image and, after a page break, the
organization ranking are present exactly when the map buffer exists, i.e.
when at least one country matches the map geometry. When the map is present,
the plotted overlay holds exactly the normalized countries found in the
geometry — a country missing from the geometry is omitted from the overlay
only, while every grouped country stays in the textual ranking. When no
country matches, both the map image and the organization ranking are
missing. -/
theorem report_sections_amended (world : List String)
    (alpha2 : String → Option String) (records : List AuthenticationRecord)
    (domain : String) (tmc : Int) (_hne : records ≠ []) :
    ReportSection.contactHeader contact_details ∈
      generate_pdf world alpha2 records domain tmc ∧
    ReportSection.title domain ∈ generate_pdf world alpha2 records domain tmc ∧
    ReportSection.generalOverview (computeSummaryTotals tmc records) ∈
      generate_pdf world alpha2 records domain tmc ∧
    ReportSection.countryRankingList (sorted_country_counts records) ∈
      generate_pdf world alpha2 records domain tmc ∧
    (∀ plotted, generate_world_map world alpha2 (country_counts records) = some plotted →
      ReportSection.mapImage plotted ∈ generate_pdf world alpha2 records domain tmc ∧
      ReportSection.pageBreak ∈ generate_pdf world alpha2 records domain tmc ∧
      ReportSection.organizationRanking (sorted_org_data records) ∈
        generate_pdf world alpha2 records domain tmc ∧
      plotted = (convert_country_codes_to_names alpha2 (country_counts records)).filter
        (fun kv => world.contains (shapefile_name kv.1)) ∧
      ∀ kv ∈ country_counts records, kv ∈ sorted_country_counts records) ∧
    (generate_world_map world alpha2 (country_counts records) = none →
      (∀ plotted, ReportSection.mapImage plotted ∉
        generate_pdf world alpha2 records domain tmc) ∧
      (∀ orgs, ReportSection.organizationRanking orgs ∉
        generate_pdf world alpha2 records domain tmc)) := by
  refine ⟨?_, ?_, ?_, ?_, ?_, ?_⟩
  · cases hm : generate_world_map world alpha2 (country_counts records) <;>
      simp [generate_pdf, hm]
  · cases hm : generate_world_map world alpha2 (country_counts records) <;>
      simp [generate_pdf, hm]
  · cases hm : generate_world_map world alpha2 (country_counts records) <;>
      simp [generate_pdf, hm]
  · cases hm : generate_world_map world alpha2 (country_counts records) <;>
      simp [generate_pdf, hm]
  · intro plotted hm
    have hp : plotted =
        (convert_country_codes_to_names alpha2 (country_counts records)).filter
          (fun kv => world.contains (shapefile_name kv.1)) := by
      simp only [generate_world_map] at hm
      split at hm
      · exact absurd hm (by simp)
      · exact (Option.some.inj hm).symm
    refine ⟨by simp [generate_pdf, hm], by simp [generate_pdf, hm],
            by simp [generate_pdf, hm], hp, ?_⟩
    intro kv hkv
    simpa [sorted_country_counts] using hkv
  · intro hm
    constructor <;> intro x <;> simp [generate_pdf, hm]

/-- C2 witness: a record from "US", whose normalized name is found in the
demo geometry, so every section is present. -/
theorem report_sections_amended_witness :
    ([rUS] : List AuthenticationRecord) ≠ [] ∧
    (ReportSection.contactHeader contact_details ∈
       generate_pdf world_demo pycountry_alpha2 [rUS] "example.com" 7 ∧
     ReportSection.title "example.com" ∈
       generate_pdf world_demo pycountry_alpha2 [rUS] "example.com" 7 ∧
     ReportSection.generalOverview (computeSummaryTotals 7 [rUS]) ∈
       generate_pdf world_demo pycountry_alpha2 [rUS] "example.com" 7 ∧
     ReportSection.countryRankingList (sorted_country_counts [rUS]) ∈
       generate_pdf world_demo pycountry_alpha2 [rUS] "example.com" 7 ∧
     (∀ plotted, generate_world_map world_demo pycountry_alpha2 (country_counts [rUS]) = some plotted →
       ReportSection.mapImage plotted ∈
         generate_pdf world_demo pycountry_alpha2 [rUS] "example.com" 7 ∧
       ReportSection.pageBreak ∈
         generate_pdf world_demo pycountry_alpha2 [rUS] "example.com" 7 ∧
       ReportSection.organizationRanking (sorted_org_data [rUS]) ∈
         generate_pdf world_demo pycountry_alpha2 [rUS] "example.com" 7 ∧
       plotted = (convert_country_codes_to_names pycountry_alpha2 (country_counts [rUS])).filter
         (fun kv => world_demo.contains (shapefile_name kv.1)) ∧
       ∀ kv ∈ country_counts [rUS], kv ∈ sorted_country_counts [rUS]) ∧
     (generate_world_map world_demo pycountry_alpha2 (country_counts [rUS]) = none →
       (∀ plotted, ReportSection.mapImage plotted ∉
         generate_pdf world_demo pycountry_alpha2 [rUS] "example.com" 7) ∧
       (∀ orgs, ReportSection.organizationRanking orgs ∉
         generate_pdf world_demo pycountry_alpha2 [rUS] "example.com" 7))) :=
  ⟨by decide,
   report_sections_amended world_demo pycountry_alpha2 [rUS] "example.com" 7 (by decide)⟩

end DmarcReport
